import Mathlib

/-!
Verification development for the conversation-PII-redaction batch tool
(src/main.py).  The Python source is embedded shallowly:

* the canonical document shapes (`Turn`, `Conversation`, timestamp side map,
  service result items, `RedactedDocument`) mirror the dict/JSON shapes the
  script builds;
* `reconcile` embeds the result-reconciliation block
  (main.py lines 351-373);
* `submitFrom` / `submitCall` embed the submission retry loop
  (main.py lines 260-302), driven by an oracle of per-attempt HTTP outcomes
  and a jitter oracle standing for random.uniform;
* `pollFrom` embeds the polling loop (main.py lines 312-349) with an explicit
  fuel argument; virtual time advances by the slept durations;
* `processAttempt` / `attemptLoop` / `process_file` / `mainRun` embed the
  per-file retry loop and the orchestrating `main` (lines 375-466), with the
  file system modelled as the list of output file names written so far.

Machine floats of the source are modelled as rationals.
-/

/-- One utterance of the original conversation, as built by the loaders
(main.py lines 103-107 / 187-191): participant label, generated item id,
raw text. -/
structure Turn where
  participantId : String
  id : String
  text : String
deriving Repr, DecidableEq

/-- A conversation payload as submitted to the service (main.py lines 78-83):
an id plus the ordered conversation items. -/
structure Conversation where
  id : String
  conversationItems : List Turn
deriving Repr, DecidableEq

/-- The `timestamps_by_id` side map: item id to optional original timestamp,
kept outside the service payload. -/
abbrev Timestamps := List (String × Option String)

/-- Python dict lookup `d.get(k)` for a dict built from an association list:
later bindings overwrite earlier ones, so the last matching key wins;
a missing key yields none. -/
def dictGet (m : List (String × String)) (k : String) : Option String :=
  (m.reverse.find? (fun p => p.1 == k)).map (fun p => p.2)

/-- `timestamps_by_id.get(item_id)`: the stored optional timestamp, or none
when the id is absent (both surface as null in the output JSON). -/
def tsGet (ts : Timestamps) (k : String) : Option String :=
  ((ts.reverse.find? (fun p => p.1 == k)).map (fun p => p.2)).join

/-- One item of the analysed conversation returned by the service:
its id and the redacted text (`item["redactedContent"]["text"]`). -/
structure ResultItem where
  id : String
  redactedText : String
deriving Repr, DecidableEq

/-- The analysed conversation extracted from the job result body
(`task_result["tasks"]["items"][0]["results"]["conversations"][0]`). -/
structure AnalysedConversation where
  id : String
  conversationItems : List ResultItem
deriving Repr, DecidableEq

/-- One entry of the output record (main.py lines 364-371). -/
structure RedactedTurn where
  timestamp : Option String
  participant : String
  text : String
deriving Repr, DecidableEq

/-- The output record (main.py lines 359-372); the empty metadata mapping is
omitted. -/
structure RedactedDocument where
  id : String
  conversation : List RedactedTurn
deriving Repr, DecidableEq

/-- The participant dict of main.py line 354:
`{item["id"]: item["participantId"] for item in conversation["conversationItems"]}`. -/
def idToParticipant (conversation : Conversation) : List (String × String) :=
  conversation.conversationItems.map (fun t => (t.id, t.participantId))

/-- The list comprehension of main.py lines 364-371, processed in service
order; a service item id with no original turn raises (KeyError on
`id_to_participant[item["id"]]`), modelled as an error result. -/
def reconcileItems (conversation : Conversation) (timestamps_by_id : Timestamps) :
    List ResultItem → Except String (List RedactedTurn)
  | [] => Except.ok []
  | item :: rest =>
    match dictGet (idToParticipant conversation) item.id with
    | some p =>
      match reconcileItems conversation timestamps_by_id rest with
      | Except.ok l =>
        Except.ok ({ timestamp := tsGet timestamps_by_id item.id
                     participant := p
                     text := item.redactedText } :: l)
      | Except.error e => Except.error e
    | none => Except.error ("KeyError: " ++ item.id)

/-- The reconciliation block of `redact_conversation` (main.py lines 351-373):
builds the redacted record from the original conversation, the timestamp side
map and the analysed conversation, taking the output id from the service. -/
def reconcile (conversation : Conversation) (timestamps_by_id : Timestamps)
    (analysed : AnalysedConversation) : Except String RedactedDocument :=
  match reconcileItems conversation timestamps_by_id analysed.conversationItems with
  | Except.ok l => Except.ok { id := analysed.id, conversation := l }
  | Except.error e => Except.error e

/-- The per-entry relation of the reconciliation output: the participant
comes from an original turn with the same id, the timestamp from the side
map (none when absent), and the text from the service redactedContent. -/
def ReconEntry (conversation : Conversation) (ts : Timestamps)
    (entry : RedactedTurn) (item : ResultItem) : Prop :=
  (∃ t ∈ conversation.conversationItems,
      t.id = item.id ∧ entry.participant = t.participantId) ∧
  entry.timestamp = tsGet ts item.id ∧
  entry.text = item.redactedText

/-- The reference document of the spec's reconciliation example. -/
def exampleConv : Conversation :=
  { id := "doc1",
    conversationItems := [{ participantId := "internal", id := "t1", text := "hi" }] }

/-- The reference timestamp side map of the spec's reconciliation example. -/
def exampleTs : Timestamps := [("t1", some "2025-01-01T00:00:00")]

/-- The reference service result of the spec's reconciliation example. -/
def exampleResult : AnalysedConversation :=
  { id := "doc1", conversationItems := [{ id := "t1", redactedText := "**" }] }

/-- The expected reconciled record of the spec's reconciliation example. -/
def exampleRedacted : RedactedDocument :=
  { id := "doc1",
    conversation := [{ timestamp := some "2025-01-01T00:00:00",
                       participant := "internal", text := "**" }] }

/-- The tunable configuration of main.py lines 32-42 that the embedded loops
consume (floats modelled as rationals). -/
structure Config where
  maxHttpRetries : Nat
  backoffFactor : ℚ
  initialPollInterval : ℚ
  maxPollInterval : ℚ
  pollTimeout : ℚ
  maxFileRetries : Nat
deriving Repr, DecidableEq

/-- The default configuration values of main.py lines 32-42:
MAX_HTTP_RETRIES=5, HTTP_BACKOFF_FACTOR=1.5, INITIAL_POLL_INTERVAL_SECONDS=2,
MAX_POLL_INTERVAL_SECONDS=15, POLL_TIMEOUT_SECONDS=1200, MAX_FILE_RETRIES=3. -/
def defaultConfig : Config :=
  { maxHttpRetries := 5, backoffFactor := 3 / 2, initialPollInterval := 2,
    maxPollInterval := 15, pollTimeout := 1200, maxFileRetries := 3 }

/-- The transient statuses of main.py line 251. -/
def status_forcelist : List Nat := [429, 500, 502, 503, 504]

/-- `retry_after.isdigit()` (ASCII digits; the header values of interest are
plain integers): a nonempty string of digit characters. -/
def isDigitStr (s : String) : Bool :=
  !s.data.isEmpty && s.data.all Char.isDigit

/-- The numeric value of a digit string, as `float` reads it. -/
def digitsToNat (l : List Char) : Nat :=
  l.foldl (fun n c => n * 10 + (c.toNat - 48)) 0

/-- `float(retry_after) if retry_after and retry_after.isdigit() else None`
(main.py lines 278, 336): a nonempty all-digit header parses to its value. -/
def parseRetryAfter (h : Option String) : Option ℚ :=
  match h with
  | none => none
  | some s => if isDigitStr s then some ((digitsToNat s.data : Nat) : ℚ) else none

/-- `_sleep_with_backoff` (main.py lines 253-258): exponential backoff with
jitter, capped at the maximum poll interval; the sampled
`random.uniform(0, base * 0.25)` value is supplied as `jitter`. -/
def sleepWithBackoff (cfg : Config) (attempt : Nat) (jitter : ℚ)
    (base : ℚ := 1 / 2) : ℚ :=
  min (base * cfg.backoffFactor ^ attempt + jitter) cfg.maxPollInterval

/-- The outcome of one submission attempt, as seen by the retry loop:
either an HTTP response (status, Retry-After header, Operation-Location
header) or a connection/timeout exception. -/
inductive SubmitEvent where
  | response (status : Nat) (retryAfter : Option String)
      (operationLocation : Option String)
  | netError
deriving Repr, DecidableEq

/-- How the submission loop of main.py lines 262-302 ends. -/
inductive SubmitResult where
  | accepted (operationLocation : Option String)
  | raisedHttp (status : Nat)
  | exhausted (lastStatus : Option Nat)
deriving Repr, DecidableEq

/-- The observable trace of a submission: its final outcome, the sleeps
performed between attempts, and the number of POST calls issued. -/
structure SubmitTrace where
  result : SubmitResult
  sleeps : List ℚ
  posts : Nat
deriving Repr, DecidableEq

/-- The submission retry loop of main.py lines 262-302, from attempt index
`attempt` with `remaining` loop iterations left; `last` is the status of the
most recent response received (the `response` variable after the loop).
A 202 breaks out; a status in the forcelist sleeps (Retry-After when a
nonempty digit string, else `_sleep_with_backoff`) and continues; any other
status of at least 400 raises via `raise_for_status` without retry; any
other status below 400 passes `raise_for_status` silently and the loop
continues; a connection/timeout error sleeps with backoff and continues.
Exhausting the loop raises carrying the last status (or no-response). -/
def submitFrom (cfg : Config) (events : Nat → SubmitEvent) (jitter : Nat → ℚ) :
    Nat → Nat → Option Nat → SubmitTrace
  | _, 0, last => { result := SubmitResult.exhausted last, sleeps := [], posts := 0 }
  | attempt, r + 1, last =>
    match events attempt with
    | SubmitEvent.netError =>
      let s := sleepWithBackoff cfg attempt (jitter attempt)
      let rest := submitFrom cfg events jitter (attempt + 1) r last
      { result := rest.result, sleeps := s :: rest.sleeps, posts := rest.posts + 1 }
    | SubmitEvent.response status ra op =>
      if status = 202 then
        { result := SubmitResult.accepted op, sleeps := [], posts := 1 }
      else if status ∈ status_forcelist then
        let s := match parseRetryAfter ra with
          | some w => min w cfg.maxPollInterval
          | none => sleepWithBackoff cfg attempt (jitter attempt)
        let rest := submitFrom cfg events jitter (attempt + 1) r (some status)
        { result := rest.result, sleeps := s :: rest.sleeps, posts := rest.posts + 1 }
      else if 400 ≤ status then
        { result := SubmitResult.raisedHttp status, sleeps := [], posts := 1 }
      else
        let rest := submitFrom cfg events jitter (attempt + 1) r (some status)
        { result := rest.result, sleeps := rest.sleeps, posts := rest.posts + 1 }

/-- One full run of the submission loop (`for attempt in
range(MAX_HTTP_RETRIES)` at main.py line 265). -/
def submitCall (cfg : Config) (events : Nat → SubmitEvent) (jitter : Nat → ℚ) :
    SubmitTrace :=
  submitFrom cfg events jitter 0 cfg.maxHttpRetries none

/-- The outcome of one polling iteration's GET, as seen by the loop of
main.py lines 314-349: an HTTP 200 carrying a body status, a non-200
response (status plus Retry-After header), or a connection/timeout error. -/
inductive PollEvent where
  | ok (bodyStatus : String)
  | http (status : Nat) (retryAfter : Option String)
  | netError
deriving Repr, DecidableEq

/-- How the polling loop ends: break on body status "succeeded", raise on
body status "failed", raise via `raise_for_status` on a non-transient status
of at least 400, or raise `TimeoutError` from the wall-clock guard. -/
inductive PollOutcome where
  | succeeded
  | jobFailed
  | raisedHttp (status : Nat)
  | timedOut
deriving Repr, DecidableEq

/-- The extra sleep of a transient polling status (main.py lines 334-342):
`min(float(Retry-After), MAX_POLL_INTERVAL_SECONDS)` when the header is a
nonempty digit string; otherwise the code passes with no extra sleep
("fall through to backoff sleep below"). -/
def transientExtra (cfg : Config) (ra : Option String) : List ℚ :=
  match parseRetryAfter ra with
  | some w => [min w cfg.maxPollInterval]
  | none => []

/-- Appends this iteration's sleeps (any transient extra wait, then the
standard inter-poll wait of main.py line 348) in front of the remaining
iterations' sleeps. -/
def pollStep (next : Option (PollOutcome × List ℚ)) (interval : ℚ)
    (extra : List ℚ) : Option (PollOutcome × List ℚ) :=
  match next with
  | some (r, ss) => some (r, extra ++ interval :: ss)
  | none => none

/-- The polling loop of main.py lines 312-349, with explicit fuel (`none`
means the fuel ran out before the loop ended).  `k` is the iteration index,
`elapsed` the virtual wall clock advanced by the slept durations, `interval`
the current inter-poll wait.  Each iteration first applies the wall-clock
guard (`time.monotonic() - start > POLL_TIMEOUT_SECONDS`), then issues the
GET; a 200 body status of "succeeded"/"failed" ends the loop, a transient
status sleeps its Retry-After extra (if any), a non-transient status of at
least 400 raises, and every continuing path then sleeps `interval` and grows
it by the backoff factor up to the maximum interval. -/
def pollFrom (cfg : Config) (events : Nat → PollEvent) :
    Nat → Nat → ℚ → ℚ → Option (PollOutcome × List ℚ)
  | 0, _, _, _ => none
  | fuel + 1, k, elapsed, interval =>
    if cfg.pollTimeout < elapsed then some (PollOutcome.timedOut, [])
    else
      match events k with
      | PollEvent.ok bs =>
        if bs = "succeeded" then some (PollOutcome.succeeded, [])
        else if bs = "failed" then some (PollOutcome.jobFailed, [])
        else pollStep (pollFrom cfg events fuel (k + 1) (elapsed + interval)
          (min (interval * cfg.backoffFactor) cfg.maxPollInterval)) interval []
      | PollEvent.http status ra =>
        if status ∈ status_forcelist then
          pollStep (pollFrom cfg events fuel (k + 1)
            (elapsed + (transientExtra cfg ra).sum + interval)
            (min (interval * cfg.backoffFactor) cfg.maxPollInterval)) interval
            (transientExtra cfg ra)
        else if 400 ≤ status then some (PollOutcome.raisedHttp status, [])
        else pollStep (pollFrom cfg events fuel (k + 1) (elapsed + interval)
          (min (interval * cfg.backoffFactor) cfg.maxPollInterval)) interval []
      | PollEvent.netError => pollStep (pollFrom cfg events fuel (k + 1)
          (elapsed + interval)
          (min (interval * cfg.backoffFactor) cfg.maxPollInterval)) interval []

/-- A polling iteration outcome that keeps the job pending: a 200 body
status other than "succeeded"/"failed", a transient or sub-400 HTTP status,
or a network error. -/
def NonTerminalEvent : PollEvent → Prop
  | PollEvent.ok bs => bs ≠ "succeeded" ∧ bs ≠ "failed"
  | PollEvent.http status _ => status ∈ status_forcelist ∨ status < 400
  | PollEvent.netError => True

/-- `redact_conversation` (main.py lines 224-373) as the composition of the
embedded submission loop, polling loop and reconciliation.  Note there is no
validation of the conversation anywhere: the submission loop runs whether or
not `conversationItems` is empty.  The poll responses and the analysed
conversation of a successful job are supplied by oracles.  Returns the
outcome together with the number of POST submission attempts issued. -/
def redactConversation (cfg : Config) (conversation : Conversation)
    (timestamps_by_id : Timestamps) (submitEvents : Nat → SubmitEvent)
    (jitter : Nat → ℚ) (pollEvents : Nat → PollEvent) (pollFuel : Nat)
    (serviceResult : AnalysedConversation) :
    Except String RedactedDocument × Nat :=
  let s := submitCall cfg submitEvents jitter
  match s.result with
  | SubmitResult.raisedHttp status =>
    (Except.error ("HTTPError: " ++ toString status), s.posts)
  | SubmitResult.exhausted _ =>
    (Except.error "Failed to submit analyze job", s.posts)
  | SubmitResult.accepted none =>
    (Except.error "Job status endpoint not found in response headers.", s.posts)
  | SubmitResult.accepted (some _) =>
    match pollFrom cfg pollEvents pollFuel 0 0 cfg.initialPollInterval with
    | some (PollOutcome.succeeded, _) =>
      (reconcile conversation timestamps_by_id serviceResult, s.posts)
    | some (PollOutcome.jobFailed, _) => (Except.error "Job failed", s.posts)
    | some (PollOutcome.raisedHttp status, _) =>
      (Except.error ("HTTPError: " ++ toString status), s.posts)
    | some (PollOutcome.timedOut, _) =>
      (Except.error "Polling timed out", s.posts)
    | none => (Except.error "poll fuel exhausted", s.posts)

/-- The empty document of the C2 scenario. -/
def emptyConv : Conversation := { id := "doc1", conversationItems := [] }

/-- A service result for the C2 scenario (never reached). -/
def emptyResult : AnalysedConversation := { id := "doc1", conversationItems := [] }

/-- The model of the output directory: the list of file names present
(`os.path.exists(os.path.join(output_dir, name))` is membership). -/
abbrev FS := List String

/-- The observable state threaded through the orchestrator: files present,
the chronological log of file writes (overwrites appear as repeated names),
and the chronological log of conversations submitted to
`redact_conversation`, by conversation id. -/
structure ProcState where
  fs : FS
  writes : List String
  submissions : List String
deriving Repr, DecidableEq

/-- `f"{redacted_conversation['id']}.json"` (main.py lines 423 and 431): the
output file name comes from the service-echoed record id. -/
def outName (recordId : String) : String := recordId ++ ".json"

/-- One input unit of work: a file (base name with the extension stripped)
together with the conversations its loader yields — a CSV or
single-document JSON yields exactly one conversation whose id is the base
name, a multi-document JSON yields one conversation per sub-document with
ids `<base>_001`, `<base>_002`, ... (main.py lines 79, 207-220). -/
structure UnitOfWork where
  base : String
  docs : List (Conversation × Timestamps)
deriving Repr, DecidableEq

/-- One attempt of the per-file loop body (main.py lines 419-438): each
loaded conversation, in order, is submitted through `redact_conversation`
(the oracle supplies that call's outcome, indexed by the sub-document
position) and, on success, its output is written under the returned record
id.  The first failure aborts the attempt, keeping the files already
written; there is no per-sub-document skip or existence check. -/
def processAttempt (oracle : Nat → Except String RedactedDocument) :
    List (Conversation × Timestamps) → Nat → ProcState →
    Except String (List String) × ProcState
  | [], _, st => (Except.ok [], st)
  | (c, _) :: rest, i, st =>
    let st1 : ProcState := { st with submissions := st.submissions ++ [c.id] }
    match oracle i with
    | Except.ok doc =>
      let name := outName doc.id
      let st2 : ProcState :=
        { fs := name :: st1.fs, writes := st1.writes ++ [name],
          submissions := st1.submissions }
      match processAttempt oracle rest (i + 1) st2 with
      | (Except.ok paths, st3) => (Except.ok (name :: paths), st3)
      | (Except.error e, st3) => (Except.error e, st3)
    | Except.error e => (Except.error e, st1)

/-- The retry loop of `process_file` (main.py lines 417-447): runs attempts
`attempt`, `attempt + 1`, ... while `remaining` iterations are left; a
failed non-final attempt backs off and restarts the whole unit from its
first sub-document; exhausting the attempts raises carrying the last
error (main.py line 449). -/
def attemptLoop (oracle : Nat → Nat → Except String RedactedDocument)
    (docs : List (Conversation × Timestamps)) :
    Nat → Nat → ProcState → Except String (List String) × ProcState
  | _, 0, st => (Except.error "All retries exhausted", st)
  | attempt, r + 1, st =>
    match processAttempt (oracle attempt) docs 0 st with
    | (Except.ok paths, st1) => (Except.ok paths, st1)
    | (Except.error e, st1) =>
      match r with
      | 0 => (Except.error ("All retries exhausted. Last error: " ++ e), st1)
      | _ + 1 => attemptLoop oracle docs (attempt + 1) r st1

/-- `process_file` (main.py lines 407-449): the early-skip guard returns at
once when `<base>.json` already exists in the output directory; otherwise up
to MAX_FILE_RETRIES attempts are made. -/
def process_file (cfg : Config) (u : UnitOfWork)
    (oracle : Nat → Nat → Except String RedactedDocument) (st : ProcState) :
    Except String (List String) × ProcState :=
  if st.fs.contains (outName u.base) then (Except.ok [outName u.base], st)
  else attemptLoop oracle u.docs 1 cfg.maxFileRetries st

/-- The pool of workers drains the pending files; completion order does not
affect any count, so the model processes units in order, threading the
shared output directory.  Returns (successes, failures, final state) as
aggregated at main.py lines 452-464. -/
def runPending (cfg : Config)
    (oracle : UnitOfWork → Nat → Nat → Except String RedactedDocument) :
    List UnitOfWork → ProcState → Nat × Nat × ProcState
  | [], st => (0, 0, st)
  | u :: rest, st =>
    let res := process_file cfg u (oracle u) st
    let acc := runPending cfg oracle rest res.2
    match res.1 with
    | Except.ok _ => (acc.1 + 1, acc.2.1, acc.2.2)
    | Except.error _ => (acc.1, acc.2.1 + 1, acc.2.2)

/-- The summary printed at main.py line 466. -/
structure RunSummary where
  successes : Nat
  failures : Nat
  skipped : Nat
deriving Repr, DecidableEq

/-- `main` (main.py lines 375-466): the skip scan filters out files whose
`<base>.json` output already exists (lines 385-395); if nothing is pending
the run returns before a pool is created (lines 397-399, pool reported as
none); otherwise the worker pool is sized
`max(1, min(max_concurrent_requests, len(all_files)))` (lines 402-403) and
the pending files are processed. -/
def mainRun (cfg : Config) (maxConcurrent : Int) (units : List UnitOfWork)
    (oracle : UnitOfWork → Nat → Nat → Except String RedactedDocument)
    (fs0 : FS) : RunSummary × Option Int × ProcState :=
  let pending := units.filter (fun u => ! fs0.contains (outName u.base))
  let skipped := (units.filter (fun u => fs0.contains (outName u.base))).length
  if pending.isEmpty then
    ({ successes := 0, failures := 0, skipped := skipped }, none,
      { fs := fs0, writes := [], submissions := [] })
  else
    let pool := max 1 (min maxConcurrent (units.length : Int))
    let r := runPending cfg oracle pending
      { fs := fs0, writes := [], submissions := [] }
    ({ successes := r.1, failures := r.2.1, skipped := skipped }, some pool,
      r.2.2)

/-- The initial processing state over a given output directory. -/
def initState (fs0 : FS) : ProcState :=
  { fs := fs0, writes := [], submissions := [] }

/-- The single-document unit of the C1 witness. -/
def unitA : UnitOfWork :=
  { base := "a", docs := [({ id := "a", conversationItems := [] }, [])] }

/-- A pipeline oracle whose service echoes each unit's base name. -/
def echoOracle : UnitOfWork → Nat → Nat → Except String RedactedDocument :=
  fun u _ _ => Except.ok { id := u.base, conversation := [] }

/-- The multi-document unit of the C1 counterexample: a JSON file `f` whose
loader yields two sub-documents; the service echoes the loader ids
`f_001` and `f_002`, so those are the output names (never `f.json`). -/
def unitMulti : UnitOfWork :=
  { base := "f",
    docs := [({ id := "f1", conversationItems := [] }, ([] : Timestamps)),
             ({ id := "f2", conversationItems := [] }, ([] : Timestamps))] }

/-- Pipeline oracle for the multi-document unit. -/
def multiOracle : UnitOfWork → Nat → Nat → Except String RedactedDocument :=
  fun _ _ d =>
    Except.ok { id := if d = 0 then "f_001" else "f_002", conversation := [] }

/-- The first run of the C1 counterexample, over an empty output
directory. -/
def run1Multi : RunSummary × Option Int × ProcState :=
  mainRun defaultConfig 100 [unitMulti] multiOracle []

/-- The second run of the C1 counterexample, over the directory persisted by
the first run. -/
def run2Multi : RunSummary × Option Int × ProcState :=
  mainRun defaultConfig 100 [unitMulti] multiOracle run1Multi.2.2.fs

/-- The five discovered files of the C3 counterexample; three of them
already have outputs, so only two are eligible. -/
def unitsFive : List UnitOfWork :=
  [{ base := "a", docs := [] }, { base := "b", docs := [] },
   { base := "c", docs := [] }, { base := "d", docs := [] },
   { base := "e", docs := [] }]

/-- The pre-existing outputs of the C3 counterexample. -/
def fsThree : FS := ["a.json", "b.json", "c.json"]

/-- The output names one attempt writes for sub-documents at positions
`i`, ..., `i + n - 1` when the service echoes `idOf` for each position. -/
def attemptNames (idOf : Nat → String) : Nat → Nat → List String
  | _, 0 => []
  | i, n + 1 => outName (idOf i) :: attemptNames idOf (i + 1) n

/-- The two-sub-document unit of the C10 witness. -/
def unitC10 : UnitOfWork :=
  { base := "f",
    docs := [({ id := "c1", conversationItems := [] }, ([] : Timestamps)),
             ({ id := "c2", conversationItems := [] }, ([] : Timestamps))] }

/-- The oracle of the C10 witness: attempt 1 succeeds on the first
sub-document and fails on the second; later attempts succeed on both. -/
def oracleC10 : Nat → Nat → Except String RedactedDocument :=
  fun a d =>
    if a = 1 then
      (if d = 0 then Except.ok { id := "f_001", conversation := [] }
       else Except.error "boom")
    else Except.ok { id := if d = 0 then "f_001" else "f_002",
                     conversation := [] }

/-- The loader naming of the C10 witness. -/
def idOfC10 : Nat → String := fun k => if k = 0 then "f_001" else "f_002"

/-- If the comprehension completed without raising, every service item id had
a participant entry. -/
theorem reconcileItems_ok_found (conversation : Conversation) (ts : Timestamps) :
    ∀ (items : List ResultItem) (l : List RedactedTurn),
      reconcileItems conversation ts items = Except.ok l →
      ∀ item ∈ items, ∃ p, dictGet (idToParticipant conversation) item.id = some p
  | [], _, _, item, hmem => absurd hmem (List.not_mem_nil item)
  | it :: rest, l, h, item, hmem => by
    rw [reconcileItems] at h
    rcases hfind : dictGet (idToParticipant conversation) it.id with _ | p
    · rw [hfind] at h
      exact absurd h (by simp)
    · rw [hfind] at h
      rcases hrest : reconcileItems conversation ts rest with e | l2
      · rw [hrest] at h
        exact absurd h (by simp)
      · rcases List.mem_cons.mp hmem with rfl | hm
        · exact ⟨p, hfind⟩
        · exact reconcileItems_ok_found conversation ts rest l2 hrest item hm

/-- A found participant entry comes from an original turn with that id. -/
theorem dictGet_some_turn (conversation : Conversation) (k p : String)
    (h : dictGet (idToParticipant conversation) k = some p) :
    ∃ t ∈ conversation.conversationItems, t.id = k ∧ p = t.participantId := by
  unfold dictGet at h
  rcases hf : (idToParticipant conversation).reverse.find? (fun q => q.1 == k) with _ | pair
  · rw [hf] at h; simp at h
  · rw [hf] at h
    simp only [Option.map_some'] at h
    have hpred := List.find?_some hf
    have hmem := List.mem_of_find?_eq_some hf
    rw [List.mem_reverse] at hmem
    unfold idToParticipant at hmem
    rcases List.mem_map.mp hmem with ⟨t, htmem, hteq⟩
    refine ⟨t, htmem, ?_, ?_⟩
    · have : pair.1 = k := by
        have := of_decide_eq_true hpred
        simpa using this
      rw [← hteq] at this
      simpa using this
    · have h2 : pair.2 = p := by simpa using h
      rw [← h2, ← hteq]

/-- C5: a service result containing an item whose id matches no turn of the
original document makes reconciliation raise (the KeyError of main.py line
367), rather than dropping the item or fabricating data. -/
theorem reconcile_unknown_id_raises (conversation : Conversation)
    (ts : Timestamps) (analysed : AnalysedConversation) (item : ResultItem)
    (hmem : item ∈ analysed.conversationItems)
    (hnoturn : ∀ t ∈ conversation.conversationItems, t.id ≠ item.id) :
    ∃ e, reconcile conversation ts analysed = Except.error e := by
  rcases hrec : reconcileItems conversation ts analysed.conversationItems with e | l
  · exact ⟨e, by rw [reconcile, hrec]⟩
  · exfalso
    rcases reconcileItems_ok_found conversation ts analysed.conversationItems l hrec
      item hmem with ⟨p, hp⟩
    rcases dictGet_some_turn conversation item.id p hp with ⟨t, htmem, htid, _⟩
    exact hnoturn t htmem htid

/-- C5 witness instance: a single-turn document and a service item with a
foreign id. -/
theorem reconcile_unknown_id_raises_witness :
    ∃ e, reconcile { id := "doc1",
                     conversationItems := [{ participantId := "internal",
                                             id := "t1", text := "hi" }] }
          [] { id := "doc1",
               conversationItems := [{ id := "t2", redactedText := "**" }] } =
        Except.error e :=
  reconcile_unknown_id_raises _ _ _ { id := "t2", redactedText := "**" }
    (by simp) (by intro t ht; simp at ht; subst ht; decide)

/-- Every successful reconciliation pairs the output entries one-to-one with
the service items, in order, via `ReconEntry`. -/
theorem reconcileItems_ok_shape (conversation : Conversation) (ts : Timestamps) :
    ∀ (items : List ResultItem) (l : List RedactedTurn),
      reconcileItems conversation ts items = Except.ok l →
      List.Forall₂ (ReconEntry conversation ts) l items
  | [], l, h => by
    rw [reconcileItems] at h
    simp only [Except.ok.injEq] at h
    rw [← h]
    exact List.Forall₂.nil
  | it :: rest, l, h => by
    rw [reconcileItems] at h
    rcases hfind : dictGet (idToParticipant conversation) it.id with _ | p
    · rw [hfind] at h; exact absurd h (by simp)
    · rw [hfind] at h
      rcases hrest : reconcileItems conversation ts rest with e | l2
      · rw [hrest] at h; exact absurd h (by simp)
      · rw [hrest] at h
        simp only [Except.ok.injEq] at h
        rw [← h]
        refine List.Forall₂.cons ?_ (reconcileItems_ok_shape conversation ts rest l2 hrest)
        rcases dictGet_some_turn conversation it.id p hfind with ⟨t, htmem, htid, hpt⟩
        exact ⟨⟨t, htmem, htid, hpt⟩, rfl, rfl⟩

/-- C9: on the reference example, reconciliation yields exactly the expected
record; and in general every successful reconciliation takes each entry's
timestamp from the side map (none when absent), its participant from the
original turn with the same id, and its text from the service's redacted
content, pairing entries with service items in order. -/
theorem reconcile_reference_example :
    reconcile exampleConv exampleTs exampleResult = Except.ok exampleRedacted ∧
    ∀ (conversation : Conversation) (ts : Timestamps)
      (analysed : AnalysedConversation) (doc : RedactedDocument),
      reconcile conversation ts analysed = Except.ok doc →
      doc.id = analysed.id ∧
      List.Forall₂ (ReconEntry conversation ts) doc.conversation
        analysed.conversationItems := by
  constructor
  · rfl
  · intro conversation ts analysed doc h
    rw [reconcile] at h
    rcases hrec : reconcileItems conversation ts analysed.conversationItems with e | l
    · rw [hrec] at h; exact absurd h (by simp)
    · rw [hrec] at h
      simp only [Except.ok.injEq] at h
      rw [← h]
      exact ⟨rfl, reconcileItems_ok_shape conversation ts analysed.conversationItems l hrec⟩

/-- C9 witness: the general shape theorem applied to the reference example. -/
theorem reconcile_reference_example_witness :
    exampleRedacted.id = exampleResult.id ∧
    List.Forall₂ (ReconEntry exampleConv exampleTs) exampleRedacted.conversation
      exampleResult.conversationItems :=
  reconcile_reference_example.2 exampleConv exampleTs exampleResult exampleRedacted
    reconcile_reference_example.1

/-- A status in the transient forcelist is not 202 and is at least 400. -/
theorem status_forcelist_facts (s : Nat) (hs : s ∈ status_forcelist) :
    s ≠ 202 ∧ 400 ≤ s := by
  simp only [status_forcelist, List.mem_cons, List.not_mem_nil, or_false] at hs
  rcases hs with rfl | rfl | rfl | rfl | rfl <;> exact ⟨by decide, by decide⟩

/-- With every attempt answered by the same transient status, the loop uses
all its iterations and ends exhausted carrying that status. -/
theorem submitFrom_const_transient (cfg : Config) (jitter : Nat → ℚ)
    (s : Nat) (ra op : Option String) (hs : s ∈ status_forcelist) :
    ∀ r, 1 ≤ r → ∀ (attempt : Nat) (last : Option Nat),
      (submitFrom cfg (fun _ => SubmitEvent.response s ra op) jitter attempt r
          last).result = SubmitResult.exhausted (some s) ∧
      (submitFrom cfg (fun _ => SubmitEvent.response s ra op) jitter attempt r
          last).posts = r := by
  intro r
  induction r with
  | zero => intro h; exact absurd h (by decide)
  | succ n ih =>
    intro _ attempt last
    rcases status_forcelist_facts s hs with ⟨h202, _⟩
    rw [submitFrom]
    simp only [if_neg h202, if_pos hs]
    rcases Nat.eq_zero_or_pos n with rfl | hn
    · exact ⟨by rw [submitFrom], by rw [submitFrom]⟩
    · rcases ih hn (attempt + 1) (some s) with ⟨h1, h2⟩
      exact ⟨h1, by rw [h2]⟩

/-- With every attempt answered by the same non-transient, non-202 status
below 400, `raise_for_status` is a no-op, the loop silently re-submits every
iteration and ends exhausted carrying that status. -/
theorem submitFrom_const_low (cfg : Config) (jitter : Nat → ℚ)
    (s : Nat) (ra op : Option String) (hs : s ∉ status_forcelist)
    (h202 : s ≠ 202) (hlow : s < 400) :
    ∀ r, 1 ≤ r → ∀ (attempt : Nat) (last : Option Nat),
      (submitFrom cfg (fun _ => SubmitEvent.response s ra op) jitter attempt r
          last).result = SubmitResult.exhausted (some s) ∧
      (submitFrom cfg (fun _ => SubmitEvent.response s ra op) jitter attempt r
          last).posts = r := by
  intro r
  induction r with
  | zero => intro h; exact absurd h (by decide)
  | succ n ih =>
    intro _ attempt last
    rw [submitFrom]
    simp only [if_neg h202, if_neg hs, if_neg (by omega : ¬ 400 ≤ s)]
    rcases Nat.eq_zero_or_pos n with rfl | hn
    · exact ⟨by rw [submitFrom], by rw [submitFrom]⟩
    · rcases ih hn (attempt + 1) (some s) with ⟨h1, h2⟩
      exact ⟨h1, by rw [h2]⟩

/-- C4 (amended): classification of submission statuses by the loop of
main.py lines 265-302.  (1) A persistent status in {429,500,502,503,504} is
retried for all MAX_HTTP_RETRIES attempts and then raises the exhaustion
error carrying that terminal status.  (2) Any status of at least 400 outside
that set raises immediately via `raise_for_status`, with exactly one POST and
zero retries, whatever later attempts would return.  (3) A persistent
non-202 status below 400 is not raised immediately: `raise_for_status`
passes silently, the loop re-submits until its attempts are exhausted, and
the exhaustion error then carries that status. -/
theorem submit_status_classification (cfg : Config) (jitter : Nat → ℚ)
    (s : Nat) (ra op : Option String) (hr : 1 ≤ cfg.maxHttpRetries) :
    (s ∈ status_forcelist →
      (submitCall cfg (fun _ => SubmitEvent.response s ra op) jitter).result =
          SubmitResult.exhausted (some s) ∧
      (submitCall cfg (fun _ => SubmitEvent.response s ra op) jitter).posts =
          cfg.maxHttpRetries) ∧
    (s ∉ status_forcelist → 400 ≤ s →
      ∀ events : Nat → SubmitEvent, events 0 = SubmitEvent.response s ra op →
        submitCall cfg events jitter =
          { result := SubmitResult.raisedHttp s, sleeps := [], posts := 1 }) ∧
    (s ∉ status_forcelist → s ≠ 202 → s < 400 →
      (submitCall cfg (fun _ => SubmitEvent.response s ra op) jitter).result =
          SubmitResult.exhausted (some s) ∧
      (submitCall cfg (fun _ => SubmitEvent.response s ra op) jitter).posts =
          cfg.maxHttpRetries) := by
  refine ⟨?_, ?_, ?_⟩
  · intro hs
    exact submitFrom_const_transient cfg jitter s ra op hs cfg.maxHttpRetries hr 0 none
  · intro hs h400 events hev
    rcases Nat.exists_eq_add_of_le hr with ⟨m, hm⟩
    rw [submitCall, hm, Nat.add_comm, submitFrom, hev]
    simp only [if_neg (by omega : ¬ s = 202), if_neg hs, if_pos h400]
  · intro hs h202 hlow
    exact submitFrom_const_low cfg jitter s ra op hs h202 hlow cfg.maxHttpRetries hr 0 none

/-- C4 witness: the classification at concrete statuses 429 (transient,
exhausts all five default attempts) and 404 (fatal, one POST, no retry). -/
theorem submit_status_classification_witness :
    (submitCall defaultConfig (fun _ => SubmitEvent.response 429 none none)
        (fun _ => 0)).result = SubmitResult.exhausted (some 429) ∧
    (submitCall defaultConfig (fun _ => SubmitEvent.response 429 none none)
        (fun _ => 0)).posts = 5 ∧
    submitCall defaultConfig (fun _ => SubmitEvent.response 404 none none)
        (fun _ => 0) =
      { result := SubmitResult.raisedHttp 404, sleeps := [], posts := 1 } := by
  refine ⟨?_, ?_, ?_⟩
  · exact ((submit_status_classification defaultConfig (fun _ => 0) 429 none none
      (by decide)).1 (by decide)).1
  · exact ((submit_status_classification defaultConfig (fun _ => 0) 429 none none
      (by decide)).1 (by decide)).2
  · exact (submit_status_classification defaultConfig (fun _ => 0) 404 none none
      (by decide)).2.1 (by decide) (by decide) _ rfl

/-- C4 counterexample: a persistent 304 response — non-2xx and outside the
transient set — is not raised immediately with zero retries as the claim
states; the default-configured loop performs all five POST attempts and ends
with the exhaustion error instead of an immediate raise. -/
theorem submit_304_not_immediate :
    submitCall defaultConfig (fun _ => SubmitEvent.response 304 none none)
        (fun _ => 0) =
      { result := SubmitResult.exhausted (some 304), sleeps := [], posts := 5 } := by
  rfl

/-- C7: a submission attempt that receives a transient status waits, before
the next attempt, exactly the Retry-After value capped at the maximum poll
interval when the header is a nonempty digit string, and otherwise
base * factor^attempt + jitter capped at the maximum poll interval, with
base = 1/2 and the jitter sampled from [0, base/4]
(main.py lines 253-258 and 276-283). -/
theorem submit_transient_wait (cfg : Config) (events : Nat → SubmitEvent)
    (jitter : Nat → ℚ) (attempt r : Nat) (last : Option Nat) (s : Nat)
    (ra op : Option String)
    (hev : events attempt = SubmitEvent.response s ra op)
    (hs : s ∈ status_forcelist)
    (_hj0 : 0 ≤ jitter attempt) (_hj1 : jitter attempt ≤ 1 / 2 * (1 / 4)) :
    (submitFrom cfg events jitter attempt (r + 1) last).sleeps.head? =
      some (match parseRetryAfter ra with
        | some w => min w cfg.maxPollInterval
        | none => min (1 / 2 * cfg.backoffFactor ^ attempt + jitter attempt)
            cfg.maxPollInterval) := by
  rcases status_forcelist_facts s hs with ⟨h202, _⟩
  rw [submitFrom, hev]
  simp only [if_neg h202, if_pos hs]
  rcases hra : parseRetryAfter ra with _ | w
  · simp [sleepWithBackoff]
  · simp

/-- C7 witness: with a Retry-After of "7" the wait is min(7, 15) = 7; with no
header at attempt 0 and zero jitter the wait is min(1/2 * 1.5^0 + 0, 15)
= 1/2, under the default configuration. -/
theorem submit_transient_wait_witness :
    (submitFrom defaultConfig (fun _ => SubmitEvent.response 429 (some "7") none)
        (fun _ => 0) 0 1 none).sleeps.head? = some 7 ∧
    (submitFrom defaultConfig (fun _ => SubmitEvent.response 503 none none)
        (fun _ => 0) 0 1 none).sleeps.head? = some (1 / 2) := by
  constructor
  · have h := submit_transient_wait defaultConfig
      (fun _ => SubmitEvent.response 429 (some "7") none) (fun _ => 0) 0 0 none
      429 (some "7") none rfl (by decide) (le_refl 0) (by norm_num)
    rw [h]
    have h7 : parseRetryAfter (some "7") = some 7 := by decide
    rw [h7]
    norm_num [defaultConfig]
  · have h := submit_transient_wait defaultConfig
      (fun _ => SubmitEvent.response 503 none none) (fun _ => 0) 0 0 none
      503 none none rfl (by decide) (le_refl 0) (by norm_num)
    rw [h]
    norm_num [parseRetryAfter, defaultConfig]

/-- `pollStep` is some whenever the continuation is. -/
theorem pollStep_isSome (next : Option (PollOutcome × List ℚ)) (interval : ℚ)
    (extra : List ℚ) (h : next.isSome = true) :
    (pollStep next interval extra).isSome = true := by
  rcases next with _ | ⟨r, ss⟩
  · exact absurd h (by simp)
  · rfl

/-- A parsed Retry-After value is a natural number, hence nonnegative. -/
theorem parseRetryAfter_nonneg (ra : Option String) (w : ℚ)
    (h : parseRetryAfter ra = some w) : 0 ≤ w := by
  rcases ra with _ | s
  · exact absurd h (by simp [parseRetryAfter])
  · rw [parseRetryAfter] at h
    by_cases hd : isDigitStr s
    · rw [if_pos hd] at h
      simp only [Option.some.injEq] at h
      rw [← h]
      exact Nat.cast_nonneg _
    · rw [if_neg hd] at h
      exact absurd h (by simp)

/-- The transient extra wait is never negative. -/
theorem transientExtra_nonneg (cfg : Config) (ra : Option String)
    (hmax : 0 ≤ cfg.maxPollInterval) : 0 ≤ (transientExtra cfg ra).sum := by
  rw [transientExtra]
  rcases hra : parseRetryAfter ra with _ | w
  · simp
  · simp only [List.sum_cons, List.sum_nil, add_zero]
    exact le_min (parseRetryAfter_nonneg ra w hra) hmax

/-- Fuel bound: once the virtual clock would exceed the poll timeout within
`n` further iterations (each sleeping at least
min(initial interval, maximum interval)), the loop ends within `n + 1`
iterations. -/
theorem pollFrom_isSome_of_fuel (cfg : Config) (events : Nat → PollEvent)
    (hd : 0 < min cfg.initialPollInterval cfg.maxPollInterval)
    (hfac : 1 ≤ cfg.backoffFactor) :
    ∀ (n k : Nat) (elapsed interval : ℚ),
      min cfg.initialPollInterval cfg.maxPollInterval ≤ interval →
      cfg.pollTimeout <
        elapsed + n * min cfg.initialPollInterval cfg.maxPollInterval →
      (pollFrom cfg events (n + 1) k elapsed interval).isSome = true := by
  intro n
  induction n with
  | zero =>
    intro k elapsed interval _ hlt
    rw [pollFrom, if_pos (by push_cast at hlt; linarith)]
    rfl
  | succ m ih =>
    intro k elapsed interval hint hlt
    rw [pollFrom]
    by_cases htime : cfg.pollTimeout < elapsed
    · rw [if_pos htime]; rfl
    · rw [if_neg htime]
      have hmax : (0 : ℚ) ≤ cfg.maxPollInterval :=
        le_of_lt (lt_of_lt_of_le hd (min_le_right _ _))
      have hintpos : (0 : ℚ) < interval := lt_of_lt_of_le hd hint
      have hint2 : min cfg.initialPollInterval cfg.maxPollInterval ≤
          min (interval * cfg.backoffFactor) cfg.maxPollInterval := by
        refine le_min ?_ (min_le_right _ _)
        calc min cfg.initialPollInterval cfg.maxPollInterval ≤ interval := hint
          _ ≤ interval * cfg.backoffFactor :=
            le_mul_of_one_le_right (le_of_lt hintpos) hfac
      have hstep : ∀ extraSum : ℚ, 0 ≤ extraSum →
          cfg.pollTimeout < elapsed + extraSum + interval +
            m * min cfg.initialPollInterval cfg.maxPollInterval := by
        intro extraSum hex
        push_cast at hlt
        linarith
      rcases hev : events k with ⟨bs⟩ | ⟨status, ra⟩ | _ <;> dsimp only
      · by_cases hbs : bs = "succeeded"
        · rw [if_pos hbs]; rfl
        · rw [if_neg hbs]
          by_cases hbf : bs = "failed"
          · rw [if_pos hbf]; rfl
          · rw [if_neg hbf]
            refine pollStep_isSome _ _ _ (ih (k + 1) (elapsed + interval) _ hint2 ?_)
            have := hstep 0 (le_refl 0)
            linarith
      · by_cases hsf : status ∈ status_forcelist
        · rw [if_pos hsf]
          refine pollStep_isSome _ _ _
            (ih (k + 1) (elapsed + (transientExtra cfg ra).sum + interval) _ hint2 ?_)
          exact hstep (transientExtra cfg ra).sum (transientExtra_nonneg cfg ra hmax)
        · rw [if_neg hsf]
          by_cases h400 : 400 ≤ status
          · rw [if_pos h400]; rfl
          · rw [if_neg h400]
            refine pollStep_isSome _ _ _ (ih (k + 1) (elapsed + interval) _ hint2 ?_)
            have := hstep 0 (le_refl 0)
            linarith
      · refine pollStep_isSome _ _ _ (ih (k + 1) (elapsed + interval) _ hint2 ?_)
        have := hstep 0 (le_refl 0)
        linarith

/-- If no iteration ever observes a terminal or fatal outcome, the loop can
only end through the wall-clock timeout guard. -/
theorem pollFrom_nonterminal_timedOut (cfg : Config) (events : Nat → PollEvent)
    (hev : ∀ k, NonTerminalEvent (events k)) :
    ∀ (fuel k : Nat) (elapsed interval : ℚ) (r : PollOutcome) (ss : List ℚ),
      pollFrom cfg events fuel k elapsed interval = some (r, ss) →
      r = PollOutcome.timedOut := by
  intro fuel
  induction fuel with
  | zero =>
    intro k elapsed interval r ss h
    exact absurd h (by rw [pollFrom]; simp)
  | succ m ih =>
    intro k elapsed interval r ss h
    rw [pollFrom] at h
    by_cases htime : cfg.pollTimeout < elapsed
    · rw [if_pos htime] at h
      simp only [Option.some.injEq, Prod.mk.injEq] at h
      exact h.1.symm
    · rw [if_neg htime] at h
      have hk := hev k
      rcases hevk : events k with ⟨bs⟩ | ⟨status, ra⟩ | _ <;>
        rw [hevk] at hk h <;> dsimp only at h <;> rw [NonTerminalEvent] at hk
      · rcases hk with ⟨hbs, hbf⟩
        rw [if_neg hbs, if_neg hbf] at h
        rcases hrec : pollFrom cfg events m (k + 1) (elapsed + interval)
            (min (interval * cfg.backoffFactor) cfg.maxPollInterval) with _ | ⟨r2, tail⟩
        · rw [hrec] at h
          simp [pollStep] at h
        · rw [hrec] at h
          simp only [pollStep, Option.some.injEq, Prod.mk.injEq] at h
          rw [← h.1]
          exact ih (k + 1) _ _ r2 tail hrec
      · by_cases hsf : status ∈ status_forcelist
        · rw [if_pos hsf] at h
          rcases hrec : pollFrom cfg events m (k + 1)
              (elapsed + (transientExtra cfg ra).sum + interval)
              (min (interval * cfg.backoffFactor) cfg.maxPollInterval) with _ | ⟨r2, tail⟩
          · rw [hrec] at h
            simp [pollStep] at h
          · rw [hrec] at h
            simp only [pollStep, Option.some.injEq, Prod.mk.injEq] at h
            rw [← h.1]
            exact ih (k + 1) _ _ r2 tail hrec
        · rcases hk with hk | hk
          · exact absurd hk hsf
          · rw [if_neg hsf, if_neg (by omega : ¬ 400 ≤ status)] at h
            rcases hrec : pollFrom cfg events m (k + 1) (elapsed + interval)
                (min (interval * cfg.backoffFactor) cfg.maxPollInterval) with _ | ⟨r2, tail⟩
            · rw [hrec] at h
              simp [pollStep] at h
            · rw [hrec] at h
              simp only [pollStep, Option.some.injEq, Prod.mk.injEq] at h
              rw [← h.1]
              exact ih (k + 1) _ _ r2 tail hrec
      · rcases hrec : pollFrom cfg events m (k + 1) (elapsed + interval)
            (min (interval * cfg.backoffFactor) cfg.maxPollInterval) with _ | ⟨r2, tail⟩
        · rw [hrec] at h
          simp [pollStep] at h
        · rw [hrec] at h
          simp only [pollStep, Option.some.injEq, Prod.mk.injEq] at h
          rw [← h.1]
          exact ih (k + 1) _ _ r2 tail hrec

/-- C6: with positive initial and maximum intervals and a backoff factor of
at least one (as configured by default), the polling loop always terminates:
some finite fuel suffices for `pollFrom` to return an outcome — a terminal
succeeded/failed body status, a fatal HTTP raise, or the wall-clock timeout.
Moreover, if no iteration ever observes a terminal body status or a fatal
HTTP status, the only possible outcome is the timeout raise, which fires
once the elapsed time exceeds the configured poll timeout. -/
theorem poll_terminates (cfg : Config) (events : Nat → PollEvent)
    (h0 : 0 < cfg.initialPollInterval) (hmax : 0 < cfg.maxPollInterval)
    (hfac : 1 ≤ cfg.backoffFactor) :
    (∃ (fuel : Nat) (outcome : PollOutcome) (sleeps : List ℚ),
      pollFrom cfg events fuel 0 0 cfg.initialPollInterval =
        some (outcome, sleeps)) ∧
    ((∀ k, NonTerminalEvent (events k)) →
      ∀ (fuel k : Nat) (elapsed interval : ℚ) (r : PollOutcome) (ss : List ℚ),
        pollFrom cfg events fuel k elapsed interval = some (r, ss) →
        r = PollOutcome.timedOut) := by
  constructor
  · set δ := min cfg.initialPollInterval cfg.maxPollInterval with hδdef
    have hδ : 0 < δ := lt_min h0 hmax
    obtain ⟨n, hn⟩ : ∃ n : Nat, cfg.pollTimeout < 0 + n * δ := by
      refine ⟨(Nat.ceil (cfg.pollTimeout / δ)) + 1, ?_⟩
      have hceil : cfg.pollTimeout / δ ≤ (Nat.ceil (cfg.pollTimeout / δ) : ℚ) :=
        Nat.le_ceil _
      have : cfg.pollTimeout / δ * δ ≤ (Nat.ceil (cfg.pollTimeout / δ) : ℚ) * δ :=
        mul_le_mul_of_nonneg_right hceil (le_of_lt hδ)
      rw [div_mul_cancel₀ _ (ne_of_gt hδ)] at this
      push_cast
      nlinarith
    have hsome := pollFrom_isSome_of_fuel cfg events hδ hfac n 0 0
      cfg.initialPollInterval (min_le_left _ _) hn
    rcases hres : pollFrom cfg events (n + 1) 0 0 cfg.initialPollInterval
      with _ | ⟨outcome, sleeps⟩
    · rw [hres] at hsome
      exact absurd hsome (by simp)
    · exact ⟨n + 1, outcome, sleeps, hres⟩
  · intro hnt
    exact pollFrom_nonterminal_timedOut cfg events hnt

/-- C6 witness: the default configuration against a job that always reports
"running" — the loop still ends (with the timeout outcome). -/
theorem poll_terminates_witness :
    ∃ (fuel : Nat) (outcome : PollOutcome) (sleeps : List ℚ),
      pollFrom defaultConfig (fun _ => PollEvent.ok "running") fuel 0 0
        defaultConfig.initialPollInterval = some (outcome, sleeps) :=
  (poll_terminates defaultConfig (fun _ => PollEvent.ok "running")
    (by norm_num [defaultConfig]) (by norm_num [defaultConfig])
    (by norm_num [defaultConfig])).1

/-- C8 (amended): on a polling iteration that receives a transient HTTP
status (main.py lines 334-348), the iteration's sleeps are exactly the
Retry-After extra wait — min(value, maximum interval) when the header is a
nonempty digit string, and nothing otherwise (the code passes without a
backoff-with-jitter wait) — followed by the standard inter-poll wait
`interval`; the loop then continues with the elapsed clock advanced by those
sleeps and the inter-poll wait grown by the backoff factor up to the
maximum interval. -/
theorem poll_transient_wait (cfg : Config) (events : Nat → PollEvent)
    (fuel k : Nat) (elapsed interval : ℚ) (s : Nat) (ra : Option String)
    (r : PollOutcome) (ss : List ℚ)
    (hevk : events k = PollEvent.http s ra)
    (hs : s ∈ status_forcelist)
    (htime : ¬ cfg.pollTimeout < elapsed)
    (hres : pollFrom cfg events (fuel + 1) k elapsed interval = some (r, ss)) :
    ∃ tail,
      pollFrom cfg events fuel (k + 1)
          (elapsed + (transientExtra cfg ra).sum + interval)
          (min (interval * cfg.backoffFactor) cfg.maxPollInterval) =
        some (r, tail) ∧
      ss = transientExtra cfg ra ++ interval :: tail ∧
      transientExtra cfg ra = (match parseRetryAfter ra with
        | some w => [min w cfg.maxPollInterval]
        | none => []) := by
  rw [pollFrom, if_neg htime, hevk] at hres
  dsimp only at hres
  rw [if_pos hs] at hres
  rcases hrec : pollFrom cfg events fuel (k + 1)
      (elapsed + (transientExtra cfg ra).sum + interval)
      (min (interval * cfg.backoffFactor) cfg.maxPollInterval) with _ | ⟨r2, tail⟩
  · rw [hrec] at hres
    simp [pollStep] at hres
  · rw [hrec] at hres
    simp only [pollStep, Option.some.injEq, Prod.mk.injEq] at hres
    exact ⟨tail, by rw [hres.1], hres.2.symm, by rw [transientExtra]⟩

/-- C8 witness: iteration 0 receives a 429 with Retry-After "3" under the
default configuration (inter-poll interval 2); iteration 1 succeeds.  The
iteration's sleeps are the capped Retry-After wait followed by the standard
inter-poll wait, giving the trace [3, 2]. -/
theorem poll_transient_wait_witness :
    ∃ tail,
      pollFrom defaultConfig
          (fun j => if j = 0 then PollEvent.http 429 (some "3")
            else PollEvent.ok "succeeded") 1 1
          (0 + (transientExtra defaultConfig (some "3")).sum + 2)
          (min (2 * defaultConfig.backoffFactor) defaultConfig.maxPollInterval) =
        some (PollOutcome.succeeded, tail) ∧
      ([3, 2] : List ℚ) = transientExtra defaultConfig (some "3") ++ 2 :: tail ∧
      transientExtra defaultConfig (some "3") =
        (match parseRetryAfter (some "3") with
          | some w => [min w defaultConfig.maxPollInterval]
          | none => []) :=
  poll_transient_wait defaultConfig
    (fun j => if j = 0 then PollEvent.http 429 (some "3")
      else PollEvent.ok "succeeded") 1 0 0 2 429 (some "3")
    PollOutcome.succeeded [3, 2] rfl (by decide) (by norm_num [defaultConfig])
    (by
      have hextra : transientExtra defaultConfig (some "3") = [3] := by decide
      have ht : defaultConfig.pollTimeout = 1200 := rfl
      have hb : defaultConfig.backoffFactor = 3 / 2 := rfl
      have hm : defaultConfig.maxPollInterval = 15 := rfl
      norm_num [pollFrom, pollStep, status_forcelist, hextra, ht, hb, hm, min_def])

/-- C8 counterexample: a transient 503 with no Retry-After header at
iteration 0 (default configuration, initial interval 2, job succeeding at
iteration 1).  The iteration performs only the single standard inter-poll
sleep of 2 seconds — there is no submission-style backoff-with-jitter wait
(which would have added a separate sleep of at least 1/2, as
`sleepWithBackoff` shows), contradicting the claim that the
Retry-After-or-backoff wait of submission is applied and stacked before the
inter-poll wait. -/
theorem poll_transient_no_backoff_counterexample :
    pollFrom defaultConfig
        (fun j => if j = 0 then PollEvent.http 503 none
          else PollEvent.ok "succeeded") 2 0 0 2 =
      some (PollOutcome.succeeded, [2]) ∧
    transientExtra defaultConfig none = [] ∧
    sleepWithBackoff defaultConfig 0 0 = 1 / 2 := by
  refine ⟨?_, by simp [transientExtra, parseRetryAfter], ?_⟩
  · norm_num [pollFrom, pollStep, transientExtra, parseRetryAfter, isDigitStr,
      defaultConfig, status_forcelist]
  · norm_num [sleepWithBackoff, defaultConfig]

/-- C2 (amended): the pipeline performs no empty-document validation.  A
document with zero turns is submitted to the service like any other — here
the service's rejection (any status of at least 400 outside the transient
set) is raised after exactly one POST, with no submission-level retry; no
validation error precedes the submission. -/
theorem empty_document_no_validation (cfg : Config) (conversation : Conversation)
    (ts : Timestamps) (jitter : Nat → ℚ) (pollEvents : Nat → PollEvent)
    (pollFuel : Nat) (serviceResult : AnalysedConversation)
    (events : Nat → SubmitEvent) (s : Nat) (ra op : Option String)
    (_hempty : conversation.conversationItems = [])
    (hev : events 0 = SubmitEvent.response s ra op)
    (hs : s ∉ status_forcelist) (h400 : 400 ≤ s)
    (hr : 1 ≤ cfg.maxHttpRetries) :
    (redactConversation cfg conversation ts events jitter pollEvents pollFuel
        serviceResult).2 = 1 ∧
    (redactConversation cfg conversation ts events jitter pollEvents pollFuel
        serviceResult).1 = Except.error ("HTTPError: " ++ toString s) := by
  have hsub : submitCall cfg events jitter =
      { result := SubmitResult.raisedHttp s, sleeps := [], posts := 1 } := by
    rcases Nat.exists_eq_add_of_le hr with ⟨m, hm⟩
    rw [submitCall, hm, Nat.add_comm, submitFrom, hev]
    simp only [if_neg (by omega : ¬ s = 202), if_neg hs, if_pos h400]
  rw [redactConversation, hsub]
  exact ⟨rfl, rfl⟩

/-- C2 witness: an empty document against a service answering 400. -/
theorem empty_document_no_validation_witness :
    (redactConversation defaultConfig emptyConv
        [] (fun _ => SubmitEvent.response 400 none none) (fun _ => 0)
        (fun _ => PollEvent.ok "succeeded") 1
        emptyResult).2 = 1 ∧
    (redactConversation defaultConfig emptyConv
        [] (fun _ => SubmitEvent.response 400 none none) (fun _ => 0)
        (fun _ => PollEvent.ok "succeeded") 1
        emptyResult).1 =
      Except.error ("HTTPError: " ++ toString 400) :=
  empty_document_no_validation defaultConfig
    emptyConv []
    (fun _ => 0) (fun _ => PollEvent.ok "succeeded") 1
    emptyResult
    (fun _ => SubmitEvent.response 400 none none) 400 none none
    rfl rfl (by decide) (by decide) (by decide)

/-- C2 counterexample: for the empty document above, the pipeline performs
one POST submission (not zero), so no validation error fires before a
submission attempt is made; the error eventually raised is the service's
HTTP rejection, not a pre-submission validation failure. -/
theorem empty_document_submitted_counterexample :
    (redactConversation defaultConfig emptyConv
        [] (fun _ => SubmitEvent.response 400 none none) (fun _ => 0)
        (fun _ => PollEvent.ok "succeeded") 1
        emptyResult).2 = 1 ∧
    emptyConv.conversationItems.length = 0 :=
  ⟨rfl, rfl⟩

/-- One attempt only adds files on top of the ones already present. -/
theorem processAttempt_fs_grows (oracle : Nat → Except String RedactedDocument) :
    ∀ (docs : List (Conversation × Timestamps)) (i : Nat) (st : ProcState),
      ∃ l, (processAttempt oracle docs i st).2.fs = l ++ st.fs
  | [], _, _ => ⟨[], rfl⟩
  | (c, t) :: rest, i, st => by
    rw [processAttempt]
    rcases horc : oracle i with e | doc <;> dsimp only
    · exact ⟨[], rfl⟩
    · rcases hres : processAttempt oracle rest (i + 1)
          { fs := outName doc.id :: st.fs, writes := st.writes ++ [outName doc.id],
            submissions := st.submissions ++ [c.id] } with ⟨res, st3⟩
      rcases processAttempt_fs_grows oracle rest (i + 1)
          { fs := outName doc.id :: st.fs, writes := st.writes ++ [outName doc.id],
            submissions := st.submissions ++ [c.id] } with ⟨l, hl⟩
      rw [hres] at hl
      dsimp only at hl
      rcases res with e2 | paths <;> dsimp only <;>
        exact ⟨l ++ [outName doc.id], by rw [hl]; simp⟩

/-- The per-file retry loop only adds files. -/
theorem attemptLoop_fs_grows (oracle : Nat → Nat → Except String RedactedDocument)
    (docs : List (Conversation × Timestamps)) :
    ∀ (n attempt : Nat) (st : ProcState),
      ∃ l, (attemptLoop oracle docs attempt n st).2.fs = l ++ st.fs := by
  intro n
  induction n with
  | zero => intro attempt st; exact ⟨[], rfl⟩
  | succ m ih =>
    intro attempt st
    rw [attemptLoop]
    rcases hres : processAttempt (oracle attempt) docs 0 st with ⟨res, st1⟩
    have hgrow := processAttempt_fs_grows (oracle attempt) docs 0 st
    rw [hres] at hgrow
    rcases hgrow with ⟨l, hl⟩
    dsimp only at hl
    rcases res with e | paths <;> dsimp only
    · rcases m with _ | m2
      · exact ⟨l, hl⟩
      · rcases ih (attempt + 1) st1 with ⟨l2, hl2⟩
        exact ⟨l2 ++ l, by rw [hl2, hl, List.append_assoc]⟩
    · exact ⟨l, hl⟩

/-- `process_file` only adds files. -/
theorem process_file_fs_grows (cfg : Config) (u : UnitOfWork)
    (oracle : Nat → Nat → Except String RedactedDocument) (st : ProcState) :
    ∃ l, (process_file cfg u oracle st).2.fs = l ++ st.fs := by
  rw [process_file]
  by_cases hc : st.fs.contains (outName u.base)
  · rw [if_pos hc]; exact ⟨[], rfl⟩
  · rw [if_neg hc]; exact attemptLoop_fs_grows oracle u.docs cfg.maxFileRetries 1 st

/-- The whole pending run only adds files. -/
theorem runPending_fs_grows (cfg : Config)
    (oracle : UnitOfWork → Nat → Nat → Except String RedactedDocument) :
    ∀ (pending : List UnitOfWork) (st : ProcState),
      ∃ l, (runPending cfg oracle pending st).2.2.fs = l ++ st.fs
  | [], _ => ⟨[], rfl⟩
  | u :: rest, st => by
    rw [runPending]
    rcases hres : process_file cfg u (oracle u) st with ⟨res, st1⟩
    have h1 := process_file_fs_grows cfg u (oracle u) st
    rw [hres] at h1
    rcases h1 with ⟨l1, hl1⟩
    dsimp only at hl1
    rcases runPending_fs_grows cfg oracle rest st1 with ⟨l2, hl2⟩
    rcases res with e | paths <;> dsimp only <;>
      exact ⟨l2 ++ l1, by rw [hl2, hl1, List.append_assoc]⟩

/-- For a single-document unit whose successful outcomes carry the unit base
name as record id, a successful pass of the retry loop leaves
`<base>.json` present. -/
theorem attemptLoop_ok_base (oracle : Nat → Nat → Except String RedactedDocument)
    (c : Conversation) (t : Timestamps) (base : String)
    (hecho : ∀ a doc, oracle a 0 = Except.ok doc → doc.id = base) :
    ∀ (n attempt : Nat) (st : ProcState) (ps : List String),
      (attemptLoop oracle [(c, t)] attempt n st).1 = Except.ok ps →
      outName base ∈ (attemptLoop oracle [(c, t)] attempt n st).2.fs := by
  intro n
  induction n with
  | zero =>
    intro attempt st ps h
    exact absurd h (by rw [attemptLoop]; simp)
  | succ m ih =>
    intro attempt st ps h
    rw [attemptLoop] at h ⊢
    rw [processAttempt] at h ⊢
    generalize horc : oracle attempt 0 = ores at h ⊢
    rcases ores with e | doc <;> dsimp only at h ⊢
    · rcases m with _ | m2
      · dsimp only at h
        exact absurd h (by simp)
      · dsimp only at h ⊢
        exact ih (attempt + 1) _ ps h
    · rw [processAttempt] at h ⊢
      dsimp only at h ⊢
      rw [hecho attempt doc horc]
      exact List.mem_cons_self _ _

/-- A successful `process_file` on a single-document unit whose successful
outcomes echo the base name leaves `<base>.json` present. -/
theorem process_file_ok_base (cfg : Config) (u : UnitOfWork)
    (oracle : Nat → Nat → Except String RedactedDocument) (st : ProcState)
    (c : Conversation) (t : Timestamps) (hdocs : u.docs = [(c, t)])
    (hecho : ∀ a doc, oracle a 0 = Except.ok doc → doc.id = u.base)
    (ps : List String) (h : (process_file cfg u oracle st).1 = Except.ok ps) :
    outName u.base ∈ (process_file cfg u oracle st).2.fs := by
  rw [process_file] at h ⊢
  by_cases hc : st.fs.contains (outName u.base)
  · rw [if_pos hc] at h ⊢
    simpa using hc
  · rw [if_neg hc] at h ⊢
    rw [hdocs] at h ⊢
    exact attemptLoop_ok_base oracle c t u.base hecho cfg.maxFileRetries 1 st ps h

/-- A pending run with zero failures succeeded on every unit; for
single-document units echoing their base names, every `<base>.json` is then
present in the final output directory. -/
theorem runPending_zero_failures (cfg : Config)
    (oracle : UnitOfWork → Nat → Nat → Except String RedactedDocument) :
    ∀ (pending : List UnitOfWork) (st : ProcState),
      (∀ u ∈ pending, ∃ c t, u.docs = [(c, t)]) →
      (∀ u ∈ pending, ∀ a doc, oracle u a 0 = Except.ok doc → doc.id = u.base) →
      (runPending cfg oracle pending st).2.1 = 0 →
      (runPending cfg oracle pending st).1 = pending.length ∧
      ∀ u ∈ pending, outName u.base ∈ (runPending cfg oracle pending st).2.2.fs
  | [], st, _, _, _ => ⟨rfl, by intro u hu; exact absurd hu (List.not_mem_nil u)⟩
  | u :: rest, st, hsingle, hecho, hfail => by
    rw [runPending] at hfail ⊢
    generalize hres : process_file cfg u (oracle u) st = pres at hfail ⊢
    rcases pres with ⟨res, st1⟩
    dsimp only at hfail ⊢
    rcases res with e | ps <;> dsimp only at hfail ⊢
    · exact absurd hfail (by simp)
    · have hrest := runPending_zero_failures cfg oracle rest st1
        (fun v hv => hsingle v (List.mem_cons_of_mem u hv))
        (fun v hv => hecho v (List.mem_cons_of_mem u hv)) hfail
      refine ⟨by simp [hrest.1], ?_⟩
      intro v hv
      rcases List.mem_cons.mp hv with rfl | hvr
      · rcases hsingle v (List.mem_cons_self v rest) with ⟨c, t, hdocs⟩
        have hmem := process_file_ok_base cfg v (oracle v) st c t hdocs
          (hecho v (List.mem_cons_self v rest)) ps (by rw [hres])
        rw [hres] at hmem
        dsimp only at hmem
        rcases runPending_fs_grows cfg oracle rest st1 with ⟨l, hl⟩
        rw [hl]
        exact List.mem_append_right l hmem
      · exact hrest.2 v hvr

/-- `main` over an empty output directory with at least one input file:
nothing is skipped, the pool is created, and every unit is processed. -/
theorem mainRun_fresh (cfg : Config) (K : Int) (units : List UnitOfWork)
    (oracle : UnitOfWork → Nat → Nat → Except String RedactedDocument)
    (hne : units ≠ []) :
    mainRun cfg K units oracle [] =
      ({ successes := (runPending cfg oracle units (initState [])).1,
         failures := (runPending cfg oracle units (initState [])).2.1,
         skipped := 0 },
       some (max 1 (min K (units.length : Int))),
       (runPending cfg oracle units (initState [])).2.2) := by
  rw [mainRun]
  have hp : units.filter (fun u => ! List.contains ([] : FS) (outName u.base)) =
      units := by simp
  have hs : units.filter (fun u => List.contains ([] : FS) (outName u.base)) =
      [] := by simp
  rw [hp, hs]
  rw [if_neg (by simp [List.isEmpty_iff, hne])]
  rfl

/-- `main` when every unit's `<base>.json` already exists: everything is
skipped, no pool is created, and nothing is submitted. -/
theorem mainRun_all_present (cfg : Config) (K : Int) (units : List UnitOfWork)
    (oracle : UnitOfWork → Nat → Nat → Except String RedactedDocument)
    (fs0 : FS) (h : ∀ u ∈ units, outName u.base ∈ fs0) :
    mainRun cfg K units oracle fs0 =
      ({ successes := 0, failures := 0, skipped := units.length }, none,
       initState fs0) := by
  rw [mainRun]
  have hp : units.filter (fun u => ! fs0.contains (outName u.base)) = [] := by
    simp only [List.filter_eq_nil_iff]
    intro u hu
    simp [h u hu]
  have hs : units.filter (fun u => fs0.contains (outName u.base)) = units := by
    rw [List.filter_eq_self]
    intro u hu
    simp [h u hu]
  rw [hp, hs]
  rfl

/-- C1 (amended): the idempotent-resume property holds for runs whose units
each yield exactly one document and whose successful pipeline outcomes echo
the unit's base name as the record id — i.e. CSV and single-document JSON
inputs, where the output file is `<base>.json`, the very name the skip scan
checks.  If a first run over an empty output directory finishes with zero
failures, a second run over the same inputs and the persisted directory
submits nothing to the service and reports a skip count equal to the first
run's success count.  (For multi-document units the outputs are
`<base>_001.json`, ..., never `<base>.json`, so the skip never fires — see
the counterexample.) -/
theorem idempotent_resume_single_doc (cfg : Config) (K : Int)
    (units : List UnitOfWork)
    (oracle : UnitOfWork → Nat → Nat → Except String RedactedDocument)
    (hsingle : ∀ u ∈ units, ∃ c t, u.docs = [(c, t)])
    (hecho : ∀ u ∈ units, ∀ a doc, oracle u a 0 = Except.ok doc → doc.id = u.base)
    (hfail : (mainRun cfg K units oracle []).1.failures = 0) :
    (mainRun cfg K units oracle
      (mainRun cfg K units oracle []).2.2.fs).2.2.submissions = [] ∧
    (mainRun cfg K units oracle
      (mainRun cfg K units oracle []).2.2.fs).1.skipped =
      (mainRun cfg K units oracle []).1.successes +
      (mainRun cfg K units oracle []).1.skipped := by
  by_cases hne : units = []
  · subst hne
    exact ⟨rfl, rfl⟩
  · rw [mainRun_fresh cfg K units oracle hne] at hfail ⊢
    dsimp only at hfail ⊢
    have hzero := runPending_zero_failures cfg oracle units (initState [])
      hsingle hecho hfail
    rw [mainRun_all_present cfg K units oracle
      (runPending cfg oracle units (initState [])).2.2.fs hzero.2]
    exact ⟨rfl, by dsimp only; rw [hzero.1, Nat.add_zero]⟩

/-- C1 witness: one CSV-like unit, all successes — the second run submits
nothing and skips exactly the first run's one success. -/
theorem idempotent_resume_single_doc_witness :
    (mainRun defaultConfig 100 [unitA] echoOracle
      (mainRun defaultConfig 100 [unitA] echoOracle []).2.2.fs).2.2.submissions
        = [] ∧
    (mainRun defaultConfig 100 [unitA] echoOracle
      (mainRun defaultConfig 100 [unitA] echoOracle []).2.2.fs).1.skipped =
      (mainRun defaultConfig 100 [unitA] echoOracle []).1.successes +
      (mainRun defaultConfig 100 [unitA] echoOracle []).1.skipped :=
  idempotent_resume_single_doc defaultConfig 100 [unitA] echoOracle
    (by
      intro u hu
      simp only [List.mem_singleton] at hu
      subst hu
      exact ⟨_, _, rfl⟩)
    (by
      intro u _ a doc h
      cases h
      rfl)
    (by decide)

/-- C1 counterexample: the first run over the multi-document unit succeeds
fully (both sibling outputs written), yet the second run still submits both
sub-documents again and skips nothing — because the skip scan looks only for
`f.json`, which is never written.  So the claim's "zero additional Pipeline
invocations" and "skip count equal to the first run's success count" (1)
both fail, and in particular a unit whose sub-documents' outputs all exist
is not skipped. -/
theorem idempotent_resume_counterexample :
    run1Multi.1 = { successes := 1, failures := 0, skipped := 0 } ∧
    run2Multi.2.2.submissions = ["f1", "f2"] ∧
    run2Multi.1.skipped = 0 :=
  ⟨by decide, by decide, by decide⟩

/-- C3 (amended): whenever at least one file is pending, the worker pool is
sized `max(1, min(configuredLimit, totalInputFileCount))` — the count used
at main.py line 403 is `len(all_files)`, all discovered input files, not the
eligible (not-yet-completed) subset. -/
theorem pool_size_formula (cfg : Config) (K : Int) (units : List UnitOfWork)
    (oracle : UnitOfWork → Nat → Nat → Except String RedactedDocument)
    (fs0 : FS)
    (hpend : units.filter (fun u => ! fs0.contains (outName u.base)) ≠ []) :
    (mainRun cfg K units oracle fs0).2.1 =
      some (max 1 (min K (units.length : Int))) := by
  rw [mainRun]
  have hcond : (units.filter
      (fun u => ! fs0.contains (outName u.base))).isEmpty = false := by
    rcases h : units.filter (fun u => ! fs0.contains (outName u.base))
      with _ | ⟨a, l⟩
    · exact absurd h hpend
    · rw [h]; rfl
  rw [if_neg (by rw [hcond]; simp)]

/-- C3 witness: one file, none completed, limit 100 — the pool is
max(1, min(100, 1)) = 1. -/
theorem pool_size_formula_witness :
    (mainRun defaultConfig 100 [unitA] echoOracle []).2.1 =
      some (max 1 (min 100 (([unitA] : List UnitOfWork).length : Int))) :=
  pool_size_formula defaultConfig 100 [unitA] echoOracle [] (by decide)

/-- C3 counterexample: with limit 10, five discovered files and only two
eligible ones, the code creates a pool of max(1, min(10, 5)) = 5 workers,
not the claimed max(1, min(10, 2)) = 2. -/
theorem pool_size_counterexample :
    (mainRun defaultConfig 10 unitsFive (fun _ _ _ => Except.error "e")
        fsThree).2.1 = some 5 ∧
    (unitsFive.filter
        (fun u => ! fsThree.contains (outName u.base))).length = 2 ∧
    (5 : Int) ≠ max 1 (min 10 (2 : Int)) :=
  ⟨by decide, by decide, by decide⟩

/-- A fully successful attempt: every sub-document is submitted (in order)
and written, regardless of what the file system already contains. -/
theorem processAttempt_all_ok (oracle : Nat → Except String RedactedDocument)
    (idOf : Nat → String) :
    ∀ (docs : List (Conversation × Timestamps)) (i : Nat) (st : ProcState),
      (∀ k, k < docs.length →
        ∃ doc, oracle (i + k) = Except.ok doc ∧ doc.id = idOf (i + k)) →
      processAttempt oracle docs i st =
        (Except.ok (attemptNames idOf i docs.length),
         { fs := (attemptNames idOf i docs.length).reverse ++ st.fs,
           writes := st.writes ++ attemptNames idOf i docs.length,
           submissions := st.submissions ++ docs.map (fun p => p.1.id) })
  | [], i, st, _ => by
    simp [processAttempt, attemptNames]
  | (c, t) :: rest, i, st, h => by
    rcases h 0 (by simp) with ⟨doc, horc, hid⟩
    rw [Nat.add_zero] at horc hid
    rw [processAttempt, horc]
    dsimp only
    have hrest := processAttempt_all_ok oracle idOf rest (i + 1)
      { fs := outName doc.id :: st.fs, writes := st.writes ++ [outName doc.id],
        submissions := st.submissions ++ [c.id] }
      (fun k hk => by
        rcases h (k + 1) (by simpa using Nat.succ_lt_succ hk) with ⟨d2, h2, hid2⟩
        refine ⟨d2, ?_, ?_⟩
        · rw [show i + 1 + k = i + (k + 1) from by omega]
          exact h2
        · rw [show i + 1 + k = i + (k + 1) from by omega]
          exact hid2)
    rw [hrest]
    dsimp only
    rw [hid]
    simp [attemptNames, List.append_assoc]

/-- An attempt that fails on sub-document `j`: the first `j` sub-documents
are submitted and written, the failing one is submitted, and the partial
writes stay in the state the caller gets back. -/
theorem processAttempt_fail_at (oracle : Nat → Except String RedactedDocument)
    (idOf : Nat → String) :
    ∀ (docs : List (Conversation × Timestamps)) (i : Nat) (st : ProcState)
      (j : Nat) (e : String), j < docs.length →
      (∀ k, k < j →
        ∃ doc, oracle (i + k) = Except.ok doc ∧ doc.id = idOf (i + k)) →
      oracle (i + j) = Except.error e →
      processAttempt oracle docs i st =
        (Except.error e,
         { fs := (attemptNames idOf i j).reverse ++ st.fs,
           writes := st.writes ++ attemptNames idOf i j,
           submissions := st.submissions ++
             (docs.take (j + 1)).map (fun p => p.1.id) })
  | [], _, _, j, e, hj, _, _ => absurd hj (by simp)
  | (c, t) :: rest, i, st, 0, e, _, _, herr => by
    rw [Nat.add_zero] at herr
    rw [processAttempt, herr]
    dsimp only
    rw [attemptNames]
    simp
  | (c, t) :: rest, i, st, j + 1, e, hj, hok, herr => by
    rcases hok 0 (by omega) with ⟨doc, horc, hid⟩
    rw [Nat.add_zero] at horc hid
    rw [processAttempt, horc]
    dsimp only
    have hrest := processAttempt_fail_at oracle idOf rest (i + 1)
      { fs := outName doc.id :: st.fs, writes := st.writes ++ [outName doc.id],
        submissions := st.submissions ++ [c.id] } j e (by simpa using hj)
      (fun k hk => by
        rcases hok (k + 1) (by omega) with ⟨d2, h2, hid2⟩
        refine ⟨d2, ?_, ?_⟩
        · rw [show i + 1 + k = i + (k + 1) from by omega]
          exact h2
        · rw [show i + 1 + k = i + (k + 1) from by omega]
          exact hid2)
      (by
        rw [show i + 1 + j = i + (j + 1) from by omega]
        exact herr)
    rw [hrest]
    dsimp only
    rw [hid]
    simp [attemptNames, List.append_assoc]

/-- C10: no per-sibling atomicity inside a unit of work.  For a unit that is
not early-skipped, whose first attempt fails on sub-document `j` after the
first `j` siblings' outputs were written, and whose second attempt fully
succeeds: the partial outputs stay on disk between attempts (they sit under
the second attempt's writes in the final file system), the second attempt
re-submits every sub-document from index 0 — the submission log is the
attempt-1 prefix (sub-documents 0..j) followed by the full list again — and
the sibling outputs written in attempt 1 are written a second time
(overwritten).  There is no per-sub-document skip or existence check inside
the retry loop. -/
theorem no_sibling_atomicity (cfg : Config) (u : UnitOfWork)
    (oracle : Nat → Nat → Except String RedactedDocument) (idOf : Nat → String)
    (st : ProcState) (j : Nat) (e : String)
    (hmfr : 2 ≤ cfg.maxFileRetries)
    (hskip : st.fs.contains (outName u.base) = false)
    (hj : j < u.docs.length)
    (h1ok : ∀ k, k < j → ∃ doc, oracle 1 k = Except.ok doc ∧ doc.id = idOf k)
    (h1err : oracle 1 j = Except.error e)
    (h2ok : ∀ k, k < u.docs.length →
      ∃ doc, oracle 2 k = Except.ok doc ∧ doc.id = idOf k) :
    process_file cfg u oracle st =
      (Except.ok (attemptNames idOf 0 u.docs.length),
       { fs := (attemptNames idOf 0 u.docs.length).reverse ++
           ((attemptNames idOf 0 j).reverse ++ st.fs),
         writes := (st.writes ++ attemptNames idOf 0 j) ++
           attemptNames idOf 0 u.docs.length,
         submissions := (st.submissions ++
             (u.docs.take (j + 1)).map (fun p => p.1.id)) ++
           u.docs.map (fun p => p.1.id) }) := by
  rw [process_file, if_neg (by rw [hskip]; simp)]
  rcases Nat.exists_eq_add_of_le hmfr with ⟨m, hm⟩
  have hm2 : cfg.maxFileRetries = m + 2 := by omega
  rw [hm2, attemptLoop]
  have h1eq := processAttempt_fail_at (oracle 1) idOf u.docs 0 st j e hj
    (fun k hk => by
      rcases h1ok k hk with ⟨doc, h2, hid⟩
      exact ⟨doc, by rwa [Nat.zero_add], by rwa [Nat.zero_add]⟩)
    (by rwa [Nat.zero_add])
  rw [h1eq]
  dsimp only
  rw [show (1 + 1 : Nat) = 2 from rfl, attemptLoop]
  have h2eq := processAttempt_all_ok (oracle 2) idOf u.docs 0
    { fs := (attemptNames idOf 0 j).reverse ++ st.fs,
      writes := st.writes ++ attemptNames idOf 0 j,
      submissions := st.submissions ++
        (u.docs.take (j + 1)).map (fun p => p.1.id) }
    (fun k hk => by
      rcases h2ok k hk with ⟨doc, h2, hid⟩
      exact ⟨doc, by rwa [Nat.zero_add], by rwa [Nat.zero_add]⟩)
  rw [h2eq]

/-- C10 witness: the no-atomicity theorem at the concrete two-sibling unit
failing at index 1 on attempt 1 — the submission log re-lists both siblings
and `f_001.json` is written twice. -/
theorem no_sibling_atomicity_witness :
    process_file defaultConfig unitC10 oracleC10 (initState []) =
      (Except.ok (attemptNames idOfC10 0 unitC10.docs.length),
       { fs := (attemptNames idOfC10 0 unitC10.docs.length).reverse ++
           ((attemptNames idOfC10 0 1).reverse ++ (initState []).fs),
         writes := ((initState []).writes ++ attemptNames idOfC10 0 1) ++
           attemptNames idOfC10 0 unitC10.docs.length,
         submissions := ((initState []).submissions ++
             (unitC10.docs.take (1 + 1)).map (fun p => p.1.id)) ++
           unitC10.docs.map (fun p => p.1.id) }) :=
  no_sibling_atomicity defaultConfig unitC10 oracleC10 idOfC10 (initState []) 1
    "boom" (by decide) (by decide) (by decide)
    (by
      intro k hk
      have hk0 : k = 0 := by omega
      subst hk0
      exact ⟨_, rfl, rfl⟩)
    rfl
    (by
      intro k hk
      have hlen : unitC10.docs.length = 2 := rfl
      have hk2 : k = 0 ∨ k = 1 := by omega
      rcases hk2 with rfl | rfl
      · exact ⟨_, rfl, rfl⟩
      · exact ⟨_, rfl, rfl⟩)
